import Mathlib

/-!
Verification of the retrieval → rerank → balance pipeline of the SHL
assessment-recommendation system.

The Lean definitions below are a shallow embedding of the Python sources:

* `src/retriever.py` — `AssessmentRetriever.retrieve`, `rerank`,
  `_rerank_with_cross_encoder`, `_rerank_with_llm`, `_balance_domains`;
* `src/vector_store.py` — `VectorStore.search` (with the external FAISS
  flat inner-product index modelled from its documented exact-search
  behaviour);
* `src/embeddings.py` — `EmbeddingGenerator._encode_gemini`;
* `src/config.py` — the retrieval defaults `TOP_K_RETRIEVAL` / `TOP_N_FINAL`.

External collaborators (the sentence-transformer and Gemini backends, the
cross-encoder scoring model, the LLM response text plus its regex/json
parsing) are parameters of the embedding: a scorer is a function argument,
and the outcome of parsing the LLM response is a value of `LlmParse`.
Machine floats appear in one algorithmically relevant place, the quota
computation `int(len(assessments) * 0.7)`; that computation is modelled
exactly (IEEE-754 binary64 rounding of `n * 0.7`, round-to-nearest,
ties-to-even) rather than approximated.
-/

set_option maxRecDepth 40000

/-- An assessment record as the pipeline consumes it: the dictionary fields
of `src/retriever.py` / `src/vector_store.py` that the pipeline reads
(`name`, `description`, `url` as the stable id, `test_type`). -/
structure Assessment where
  name : String
  description : String
  url : String
  testType : List String
deriving DecidableEq, Repr, Inhabited

/-- Categorisation test of `_balance_domains`: `any(t in ['K', 'P'] for t in test_types)`. -/
def isTechnical (a : Assessment) : Bool :=
  a.testType.any (fun t => t == "K" || t == "P")

/-- Categorisation test of `_balance_domains`: `any(t in ['B', 'S'] for t in test_types)`. -/
def isBehavioral (a : Assessment) : Bool :=
  a.testType.any (fun t => t == "B" || t == "S")

/-- The `technical` list built by the categorisation loop of `_balance_domains`
(`src/retriever.py` lines 201–208), in input order. -/
def technicalBucket (l : List Assessment) : List Assessment :=
  l.filter isTechnical

/-- The `behavioral` list of `_balance_domains`: items that fail the technical
test (an `elif`) and pass the behavioral test. -/
def behavioralBucket (l : List Assessment) : List Assessment :=
  l.filter (fun a => !isTechnical a && isBehavioral a)

/-- The `other` list of `_balance_domains`: items in neither category. -/
def otherBucket (l : List Assessment) : List Assessment :=
  l.filter (fun a => !isTechnical a && !isBehavioral a)

/-- Fuel-driven floor of the base-2 logarithm (`log2Fuel n n` is exact for
every `n ≥ 1` since the value halves each step). Structural recursion keeps
it kernel-computable. -/
def log2Fuel : Nat → Nat → Nat
  | 0, _ => 0
  | fuel+1, n => if n ≤ 1 then 0 else log2Fuel fuel (n / 2) + 1

/-- The integer significand of the IEEE-754 binary64 number nearest 0.7:
`0.7` rounds to `6305039478318694 / 2^53`. -/
def doubleSig07 : Nat := 6305039478318694

/-- Exact model of Python's `int(n * 0.7)` for `0 ≤ n < 2^53` (the range in
which `float(n)` is exact): the real product `n * (doubleSig07 / 2^53)` is
rounded to the nearest binary64 value (53-bit significand, ties to even) and
then truncated toward zero, exactly as the hardware multiply plus `int()` do.
This is the quota computation of `_balance_domains`
(`src/retriever.py` line 211). -/
def pyIntTimes07 (n : Nat) : Nat :=
  let x := n * doubleSig07
  if x = 0 then 0 else
  let t := log2Fuel x x
  let s : Nat :=
    if t ≤ 52 then x * 2 ^ (52 - t)
    else
      let d := 2 ^ (t - 52)
      let q := x / d
      let r := x % d
      if 2 * r < d then q
      else if 2 * r > d then q + 1
      else if q % 2 = 0 then q else q + 1
  s * 2 ^ t / 2 ^ 105

/-- `target_technical = int(len(assessments) * 0.7)` of `_balance_domains`. -/
def targetTechnical (n : Nat) : Nat := pyIntTimes07 n

/-- Lines 214–216 of `src/retriever.py`: `balanced = technical[:target_technical]
+ behavioral[:target_behavioral]`, then `remaining = len(assessments) -
len(balanced)` and, when positive, `balanced += other[:remaining]`. -/
def balancePrimary (t b o : List α) (tt tb n : Nat) : List α :=
  let bal1 := t.take tt ++ b.take tb
  let rem := n - bal1.length
  if 0 < rem then bal1 ++ o.take rem else bal1

/-- Lines 224–226 of `src/retriever.py`: if the accumulated list is still
short, append the technical leftovers beyond the quota, then the behavioral
leftovers. -/
def balanceFill (t b o : List α) (tt tb n : Nat) : List α :=
  let bal2 := balancePrimary t b o tt tb n
  if bal2.length < n then bal2 ++ t.drop tt ++ b.drop tb else bal2

/-- Line 228 of `src/retriever.py`: `return balanced[:len(assessments)]`. -/
def balanceCore (t b o : List α) (tt tb n : Nat) : List α :=
  (balanceFill t b o tt tb n).take n

/-- `AssessmentRetriever._balance_domains` (`src/retriever.py` lines 186–228):
partition into technical / behavioral / other, take up to the 70% technical
quota then the behavioral remainder, fill from `other`, fill from leftovers,
truncate to the input length. -/
def balanceDomains (l : List Assessment) : List Assessment :=
  balanceCore (technicalBucket l) (behavioralBucket l) (otherBucket l)
    (targetTechnical l.length) (l.length - targetTechnical l.length) l.length

/-- Python's `sorted(range(len(keys)), key=lambda i: keys[i], reverse=True)`:
the indices of `keys` in non-increasing key order; the sort is stable, so
equal keys keep their original index order (insertion sort from the right
with a non-strict comparison realises exactly that stable order). -/
def pyArgsortDesc (keys : List ℚ) : List ℕ :=
  List.insertionSort (fun i j => keys.getD j 0 ≤ keys.getD i 0) (List.range keys.length)

instance argsortDescDecidable (keys : List ℚ) :
    DecidableRel (fun i j : ℕ => keys.getD j 0 ≤ keys.getD i 0) :=
  fun _ _ => inferInstance

instance argsortDescTotal (keys : List ℚ) :
    IsTotal ℕ (fun i j : ℕ => keys.getD j 0 ≤ keys.getD i 0) :=
  ⟨fun _ _ => le_total _ _⟩

instance argsortDescTrans (keys : List ℚ) :
    IsTrans ℕ (fun i j : ℕ => keys.getD j 0 ≤ keys.getD i 0) :=
  ⟨fun _ _ _ h₁ h₂ => le_trans h₂ h₁⟩

/-- The sort-by-score step shared by both rerankers (`src/retriever.py`
lines 119–124 and 171–176): `sorted_indices = sorted(range(len(scores)),
key=lambda i: scores[i], reverse=True)`, then `[candidates[i] for i in
sorted_indices]` and `[scores[i] for i in sorted_indices]`. -/
def sortByKeysDesc (keys : List ℚ) (cands : List Assessment) :
    List Assessment × List ℚ :=
  ((pyArgsortDesc keys).map (fun i => cands.getD i default),
   (pyArgsortDesc keys).map (fun i => keys.getD i 0))

/-- The pair text `f"{candidate['name']}. {candidate['description']}"` of
`_rerank_with_cross_encoder` (`src/retriever.py` line 112). -/
def candidateText (c : Assessment) : String :=
  c.name ++ ". " ++ c.description

/-- `AssessmentRetriever._rerank_with_cross_encoder` (`src/retriever.py`
lines 105–124). The external cross-encoder model is the parameter `predict`:
`predict query text` is its score for the pair `[query, text]`. The
candidates are returned sorted by score descending (stable), with the
scores parallel to them. -/
def rerankWithCrossEncoder (predict : String → String → ℚ) (query : String)
    (candidates : List Assessment) : List Assessment × List ℚ :=
  sortByKeysDesc (candidates.map (fun c => predict query (candidateText c))) candidates

/-- Outcome of the response-parsing step of `_rerank_with_llm`
(`src/retriever.py` lines 159–163): the regex search for `\[[\d,\s]+\]`
found nothing (`noMatch`, falls through without an exception), or parsing
raised (`parseError`, any exception inside the `try` block, e.g.
`json.loads` failing), or it produced a list of non-negative integers
(`parsed` — the character class has no minus sign, so parsed scores are
natural numbers). -/
inductive LlmParse where
  | noMatch : LlmParse
  | parseError : LlmParse
  | parsed : List ℕ → LlmParse
deriving DecidableEq, Repr

/-- Truncation of the parsed scores, `scores = scores[:len(candidates)]`
(`src/retriever.py` line 164). The code never pads a short list. -/
def llmTruncScores (scores0 : List ℕ) (candidates : List Assessment) : List ℕ :=
  scores0.take candidates.length

/-- `max_score = max(scores) if scores else 1` (`src/retriever.py` line 167):
the guard covers the empty list only; a non-empty all-zero list yields 0. -/
def llmMaxScore (scores1 : List ℕ) : ℕ :=
  if scores1.isEmpty then 1 else scores1.foldr max 0

/-- `scores = [s / max_score for s in scores]` (`src/retriever.py` line 168). -/
def llmNormScores (scores1 : List ℕ) : List ℚ :=
  scores1.map (fun (v : ℕ) => (v : ℚ) / (llmMaxScore scores1 : ℚ))

/-- The `try` block of `_rerank_with_llm` after the model call
(`src/retriever.py` lines 161–178): on a regex match, truncate the scores to
the candidate count, compute `max_score`, divide each score by `max_score`
(raising `ZeroDivisionError`, modelled as `.error`, exactly when the
truncated list is non-empty with maximum 0 — Python raises on the first
`s / 0`), and sort candidates by normalised score descending. `.ok none` is
the fall-through when the regex finds no match; `.ok (some r)` is the
`return` inside the `if`. -/
def llmAttempt (outcome : LlmParse) (candidates : List Assessment) :
    Except Unit (Option (List Assessment × List ℚ)) :=
  match outcome with
  | .noMatch => .ok none
  | .parseError => .error ()
  | .parsed scores0 =>
    let scores1 := llmTruncScores scores0 candidates
    if llmMaxScore scores1 = 0 then .error ()
    else .ok (some (sortByKeysDesc (llmNormScores scores1) candidates))

/-- `AssessmentRetriever._rerank_with_llm` (`src/retriever.py` lines
126–184): any exception is caught and, like the no-match fall-through, ends
in `return candidates, [1.0] * len(candidates)` (line 184). -/
def rerankWithLLM (outcome : LlmParse) (candidates : List Assessment) :
    List Assessment × List ℚ :=
  match llmAttempt outcome candidates with
  | .ok (some r) => r
  | .ok none => (candidates, List.replicate candidates.length 1)
  | .error _ => (candidates, List.replicate candidates.length 1)

/-- The reranking flags of `AssessmentRetriever.__init__` after
initialisation: `use_llm_reranking` is already conjoined with the presence
of an API key (line 32), and the cross-encoder object exists exactly when
`use_reranker and not use_llm_reranking` (line 35). -/
structure RetrieverConfig where
  useReranker : Bool
  useLlmReranking : Bool
deriving DecidableEq, Repr

/-- `AssessmentRetriever.rerank` (`src/retriever.py` lines 84–103):
dispatch to the LLM strategy, else the cross-encoder when it was loaded,
else return the candidates as-is with dummy scores `[1.0] * len(candidates)`. -/
def rerank (cfg : RetrieverConfig) (predict : String → String → ℚ)
    (outcome : LlmParse) (query : String) (candidates : List Assessment) :
    List Assessment × List ℚ :=
  if cfg.useLlmReranking then rerankWithLLM outcome candidates
  else if cfg.useReranker then rerankWithCrossEncoder predict query candidates
  else (candidates, List.replicate candidates.length 1)

/-- Inner product of two vectors, the score `faiss.IndexFlatIP` assigns. -/
def dot (u v : List ℚ) : ℚ := (List.zipWith (· * ·) u v).sum

/-- `VectorStore` state (`src/vector_store.py`): `self.index` is `None`
until `build_index`/`load` installs the FAISS index, modelled by the list of
stored embedding rows; `self.assessments` is the catalog metadata. -/
structure VectorStoreM where
  index : Option (List (List ℚ))
  assessments : List Assessment

/-- Modelled from the spec: the external `faiss.IndexFlatIP.search` is not
repository code; per the spec (§4.2) it scores every stored vector by inner
product with the query and returns the `k` highest-scoring indices in
descending score order (exact flat search, `k ≤ ntotal`), together with the
parallel scores. -/
def faissSearchIP (vecs : List (List ℚ)) (queryVec : List ℚ) (k : ℕ) :
    List ℕ × List ℚ :=
  let scores := vecs.map (fun v => dot queryVec v)
  let idxs := (pyArgsortDesc scores).take k
  (idxs, idxs.map (fun i => scores.getD i 0))

/-- `VectorStore.search` (`src/vector_store.py` lines 74–108): raise
(`ValueError("Index not built...")`, modelled as `.error ()`) when no index
is installed; otherwise search the FAISS index with
`min(top_k, self.index.ntotal)` and keep each hit whose index is below
`len(self.assessments)`, returning the records and scores in FAISS order.
The query embedding is computed by the external embedder, so it is the
parameter `queryVec`. -/
def VectorStoreM.search (vs : VectorStoreM) (queryVec : List ℚ) (topK : ℕ) :
    Except Unit (List Assessment × List ℚ) :=
  match vs.index with
  | none => .error ()
  | some vecs =>
    let res := faissSearchIP vecs queryVec (min topK vecs.length)
    let kept := (res.1.zip res.2).filter (fun p => decide (p.1 < vs.assessments.length))
    .ok (kept.map (fun p => vs.assessments.getD p.1 default),
         kept.map (fun p => p.2))

/-- `Config.TOP_K_RETRIEVAL` (`src/config.py` line 34) with the environment
unset: `int(os.getenv("TOP_K_RETRIEVAL", "20"))`. -/
def TOP_K_RETRIEVAL : ℕ := 20

/-- `Config.TOP_N_FINAL` (`src/config.py` line 35) with the environment
unset: `int(os.getenv("TOP_N_FINAL", "10"))`. -/
def TOP_N_FINAL : ℕ := 10

/-- Python's `value or default` for an optional non-negative integer
parameter: `None` and `0` are falsy, so both fall back to the default
(`src/retriever.py` lines 62–63). -/
def pyOrDefault (v : Option ℕ) (d : ℕ) : ℕ :=
  match v with
  | none => d
  | some k => if k = 0 then d else k

/-- `AssessmentRetriever.retrieve` (`src/retriever.py` lines 47–82):
resolve the defaults, search, short-circuit an empty candidate list to `[]`,
rerank when either reranking flag is set, truncate to `top_n`, balance.
A `ValueError` from `search` propagates to the caller. -/
def retrieve (cfg : RetrieverConfig) (predict : String → String → ℚ)
    (outcome : LlmParse) (vs : VectorStoreM) (query : String)
    (queryVec : List ℚ) (topK topN : Option ℕ) :
    Except Unit (List Assessment) :=
  let tk := pyOrDefault topK TOP_K_RETRIEVAL
  let tn := pyOrDefault topN TOP_N_FINAL
  match vs.search queryVec tk with
  | .error e => .error e
  | .ok (candidates, _scores) =>
    if candidates.isEmpty then .ok []
    else
      let reranked :=
        if cfg.useReranker || cfg.useLlmReranking then
          (rerank cfg predict outcome query candidates).1
        else candidates
      .ok (balanceDomains (reranked.take tn))

/-- Euclidean norm of a row, `np.linalg.norm(embeddings, axis=1)` in
`_encode_gemini` (`src/embeddings.py` line 106). -/
noncomputable def l2norm (v : List ℝ) : ℝ :=
  Real.sqrt ((v.map (fun x => x * x)).sum)

/-- The divisor `_encode_gemini` actually divides by: `norms[norms == 0] = 1`
replaces a zero row norm by 1 before the division (`src/embeddings.py`
line 107). -/
noncomputable def geminiDivisor (v : List ℝ) : ℝ :=
  if l2norm v = 0 then 1 else l2norm v

/-- Row normalisation step of `_encode_gemini`: `embeddings / norms` after
the zero-norm guard. -/
noncomputable def normalizeRow (v : List ℝ) : List ℝ :=
  v.map (fun x => x / geminiDivisor v)

/-- The zero vector substituted for a failed item,
`[0.0] * self.dimension` (`src/embeddings.py` line 101). -/
noncomputable def zeroVec (dim : ℕ) : List ℝ := List.replicate dim 0

/-- `EmbeddingGenerator._encode_gemini` (`src/embeddings.py` lines 78–110):
one backend call per text in order; a call that raises (`backend t = none`)
contributes the zero vector and the loop continues; afterwards every row is
divided by its norm with the zero-norm guard. The external
`genai.embed_content` is the parameter `backend`. -/
noncomputable def encodeGemini (backend : String → Option (List ℝ)) (dim : ℕ)
    (texts : List String) : List (List ℝ) :=
  (texts.map (fun t => (backend t).getD (zeroVec dim))).map normalizeRow

/-- Sample technical assessment (test type K) for concrete instantiations. -/
def sampleTech : Assessment :=
  ⟨"Python Test", "coding assessment", "https://example.com/python", ["K"]⟩

/-- Sample behavioral assessment (test type B) for concrete instantiations. -/
def sampleBeh : Assessment :=
  ⟨"OPQ", "personality assessment", "https://example.com/opq", ["B"]⟩

/-- Sample uncategorised assessment for concrete instantiations. -/
def sampleOther : Assessment :=
  ⟨"General", "misc assessment", "https://example.com/general", ["A"]⟩

lemma perm_filter_partition (p q : α → Bool) (l : List α) :
    List.Perm l
      (l.filter p ++ (l.filter (fun a => !p a && q a) ++ l.filter (fun a => !p a && !q a))) := by
  induction l with
  | nil => simp
  | cons a l ih =>
    by_cases hp : p a
    · simpa [List.filter_cons, hp] using ih.cons a
    · by_cases hq : q a
      · simp only [List.filter_cons, hp, hq, Bool.not_false, Bool.not_true, Bool.false_and,
          Bool.true_and, Bool.and_self, if_false, if_true, ite_true, ite_false,
          List.cons_append]
        exact (ih.cons a).trans List.perm_middle.symm
      · simp only [List.filter_cons, hp, hq, Bool.not_false, Bool.not_true, Bool.false_and,
          Bool.true_and, Bool.and_self, if_false, if_true, ite_true, ite_false,
          List.cons_append]
        exact (ih.cons a).trans
          (List.perm_middle.symm.trans (List.Perm.append_left _ List.perm_middle.symm))

lemma balancePrimary_eq (t b o : List α) (tt tb : ℕ) :
    balancePrimary t b o tt tb (t.length + b.length + o.length) =
      (t.take tt ++ b.take tb) ++ o := by
  have hlen : (t.take tt ++ b.take tb).length = min tt t.length + min tb b.length := by
    simp [List.length_take]
  simp only [balancePrimary]
  by_cases h : 0 < t.length + b.length + o.length - (t.take tt ++ b.take tb).length
  · have ho : List.take (t.length + b.length + o.length - (t.take tt ++ b.take tb).length) o = o :=
      List.take_of_length_le (by omega)
    rw [if_pos h, ho]
  · rw [if_neg h]
    have h0 : o.length = 0 := by omega
    rw [List.length_eq_zero.mp h0, List.append_nil]

lemma balanceFill_perm (t b o : List α) (tt tb : ℕ) :
    List.Perm (balanceFill t b o tt tb (t.length + b.length + o.length)) (t ++ (b ++ o)) := by
  simp only [balanceFill, balancePrimary_eq]
  by_cases hc : ((t.take tt ++ b.take tb) ++ o).length < t.length + b.length + o.length
  · rw [if_pos hc, ← Multiset.coe_eq_coe]
    have ht := congrArg (fun l : List α => (l : Multiset α)) (List.take_append_drop tt t)
    have hb := congrArg (fun l : List α => (l : Multiset α)) (List.take_append_drop tb b)
    simp only [← Multiset.coe_add] at ht hb
    simp only [← Multiset.coe_add]
    rw [← ht, ← hb]
    abel
  · rw [if_neg hc]
    have h1 : t.length ≤ tt ∧ b.length ≤ tb := by
      simp only [List.length_append, List.length_take] at hc
      omega
    rw [List.take_of_length_le h1.1, List.take_of_length_le h1.2, List.append_assoc]

lemma balanceCore_perm (t b o : List α) (tt tb : ℕ) :
    List.Perm (balanceCore t b o tt tb (t.length + b.length + o.length)) (t ++ (b ++ o)) := by
  have h := balanceFill_perm t b o tt tb
  have hlen : (balanceFill t b o tt tb (t.length + b.length + o.length)).length =
      t.length + b.length + o.length := by
    have h2 := h.length_eq
    simp only [List.length_append] at h2
    omega
  simpa [balanceCore, List.take_of_length_le (le_of_eq hlen)] using h

lemma map_getD_range (l : List α) (d : α) :
    (List.range l.length).map (fun i => l.getD i d) = l := by
  apply List.ext_getElem
  · simp
  · intro n h1 h2
    simp only [List.getElem_map, List.getElem_range]
    rw [List.getD_eq_getElem l d h2]

lemma argsort_perm (keys : List ℚ) :
    List.Perm (pyArgsortDesc keys) (List.range keys.length) :=
  List.perm_insertionSort _ _

lemma argsort_length (keys : List ℚ) : (pyArgsortDesc keys).length = keys.length := by
  simpa using (argsort_perm keys).length_eq

lemma argsort_mem_lt (keys : List ℚ) {i : ℕ} (h : i ∈ pyArgsortDesc keys) :
    i < keys.length :=
  List.mem_range.mp ((argsort_perm keys).mem_iff.mp h)

lemma argsort_nodup (keys : List ℚ) : (pyArgsortDesc keys).Nodup :=
  (argsort_perm keys).nodup_iff.mpr (List.nodup_range keys.length)

lemma argsort_pairwise (keys : List ℚ) :
    (pyArgsortDesc keys).Pairwise (fun i j => keys.getD j 0 ≤ keys.getD i 0) :=
  List.sorted_insertionSort _ _

lemma argsort_map_perm (keys : List ℚ) (l : List α) (d : α) (h : keys.length = l.length) :
    List.Perm ((pyArgsortDesc keys).map (fun i => l.getD i d)) l := by
  have h1 := (argsort_perm keys).map (fun i => l.getD i d)
  rw [h, map_getD_range] at h1
  exact h1

lemma argsort_scores_sorted (keys : List ℚ) :
    ((pyArgsortDesc keys).map (fun i => keys.getD i 0)).Pairwise (· ≥ ·) :=
  List.pairwise_map.mpr (argsort_pairwise keys)

lemma pyIntTimes07_small : ∀ n < 90, pyIntTimes07 n = 7 * n / 10 := by decide

lemma replicate_pairwise_ge (n : ℕ) :
    (List.replicate n (1 : ℚ)).Pairwise (· ≥ ·) :=
  List.pairwise_replicate.mpr (Or.inr le_rfl)

/-- C1: for every input list of candidates, `_balance_domains` returns a list
of exactly the same length whose elements are a permutation of the input
multiset — every output item is drawn from the input, no item is dropped or
duplicated — for any mixture of technical/behavioral/other categorisation,
including all-technical and all-behavioral inputs. -/
theorem balance_domains_perm (l : List Assessment) :
    List.Perm (balanceDomains l) l ∧ (balanceDomains l).length = l.length := by
  have hpart := perm_filter_partition isTechnical isBehavioral l
  have hn : l.length =
      (technicalBucket l).length + (behavioralBucket l).length + (otherBucket l).length := by
    have h2 := hpart.length_eq
    simp only [List.length_append] at h2
    simp only [technicalBucket, behavioralBucket, otherBucket]
    omega
  have key := balanceCore_perm (technicalBucket l) (behavioralBucket l) (otherBucket l)
    (targetTechnical l.length) (l.length - targetTechnical l.length)
  rw [← hn] at key
  have hperm : List.Perm (balanceDomains l) l := by
    unfold balanceDomains
    exact key.trans hpart.symm
  exact ⟨hperm, hperm.length_eq⟩

lemma sortByKeysDesc_spec (keys : List ℚ) (cands : List Assessment)
    (h : keys.length = cands.length) :
    List.Perm (sortByKeysDesc keys cands).1 cands ∧
    (sortByKeysDesc keys cands).2.Pairwise (· ≥ ·) ∧
    (sortByKeysDesc keys cands).2.length = cands.length := by
  refine ⟨argsort_map_perm keys cands default h, argsort_scores_sorted keys, ?_⟩
  simp [sortByKeysDesc, argsort_length, h]

lemma rerankWithLLM_fallback_spec (cands : List Assessment) :
    List.Perm (cands, List.replicate cands.length (1 : ℚ)).1 cands ∧
    (cands, List.replicate cands.length (1 : ℚ)).2.Pairwise (· ≥ ·) ∧
    (cands, List.replicate cands.length (1 : ℚ)).2.length = cands.length :=
  ⟨List.Perm.refl cands, replicate_pairwise_ge cands.length, by simp⟩

lemma llmAttempt_parsed (s : List ℕ) (cands : List Assessment) :
    llmAttempt (.parsed s) cands =
      if llmMaxScore (llmTruncScores s cands) = 0 then .error ()
      else .ok (some (sortByKeysDesc (llmNormScores (llmTruncScores s cands)) cands)) := rfl

lemma rerankWithLLM_parsed_ok (s : List ℕ) (cands : List Assessment)
    (h : llmMaxScore (llmTruncScores s cands) ≠ 0) :
    rerankWithLLM (.parsed s) cands =
      sortByKeysDesc (llmNormScores (llmTruncScores s cands)) cands := by
  simp only [rerankWithLLM, llmAttempt_parsed, if_neg h]

lemma rerankWithLLM_parsed_zero (s : List ℕ) (cands : List Assessment)
    (h : llmMaxScore (llmTruncScores s cands) = 0) :
    rerankWithLLM (.parsed s) cands = (cands, List.replicate cands.length 1) := by
  simp only [rerankWithLLM, llmAttempt_parsed, if_pos h]

lemma llmNormScores_length (s1 : List ℕ) : (llmNormScores s1).length = s1.length := by
  unfold llmNormScores
  rw [List.length_map]

lemma llmTruncScores_length_of_le (s : List ℕ) (cands : List Assessment)
    (h : cands.length ≤ s.length) :
    (llmTruncScores s cands).length = cands.length := by
  simp [llmTruncScores, List.length_take]
  omega

/-- C2 (amended): `rerank` on N candidates returns a permutation of the input
with parallel scores non-increasing in the returned order for the pairwise
(cross-encoder) strategy and the disabled strategy unconditionally; for the
generative (LLM) strategy this holds whenever the response parse fails (no
match or an exception) or yields at least N numbers. (A successful parse
with fewer than N numbers makes the generative strategy return fewer than N
candidates — see the counterexample.) -/
theorem rerank_perm_sorted (cfg : RetrieverConfig) (predict : String → String → ℚ)
    (outcome : LlmParse) (query : String) (cands : List Assessment)
    (hllm : cfg.useLlmReranking = true →
      outcome = LlmParse.noMatch ∨ outcome = LlmParse.parseError ∨
      ∃ s, outcome = LlmParse.parsed s ∧ cands.length ≤ s.length) :
    List.Perm (rerank cfg predict outcome query cands).1 cands ∧
    (rerank cfg predict outcome query cands).2.Pairwise (· ≥ ·) ∧
    (rerank cfg predict outcome query cands).2.length = cands.length := by
  unfold rerank
  by_cases hL : cfg.useLlmReranking = true
  · rw [if_pos hL]
    rcases hllm hL with h | h | ⟨s, hs, hlen⟩
    · subst h
      exact rerankWithLLM_fallback_spec cands
    · subst h
      exact rerankWithLLM_fallback_spec cands
    · subst hs
      by_cases hmax : llmMaxScore (llmTruncScores s cands) = 0
      · rw [rerankWithLLM_parsed_zero s cands hmax]
        exact rerankWithLLM_fallback_spec cands
      · rw [rerankWithLLM_parsed_ok s cands hmax]
        apply sortByKeysDesc_spec
        rw [llmNormScores_length, llmTruncScores_length_of_le s cands hlen]
  · rw [if_neg hL]
    by_cases hR : cfg.useReranker = true
    · rw [if_pos hR]
      unfold rerankWithCrossEncoder
      apply sortByKeysDesc_spec
      rw [List.length_map]
    · rw [if_neg hR]
      exact rerankWithLLM_fallback_spec cands

/-- Witness for C2 at a concrete input: the LLM strategy with a failed parse
on a one-element candidate list. -/
theorem rerank_perm_sorted_witness :
    List.Perm (rerank ⟨true, true⟩ (fun _ _ => 0) LlmParse.noMatch "q" [sampleTech]).1
      [sampleTech] ∧
    (rerank ⟨true, true⟩ (fun _ _ => 0) LlmParse.noMatch "q" [sampleTech]).2.Pairwise (· ≥ ·) ∧
    (rerank ⟨true, true⟩ (fun _ _ => 0) LlmParse.noMatch "q" [sampleTech]).2.length = 1 :=
  rerank_perm_sorted ⟨true, true⟩ (fun _ _ => 0) LlmParse.noMatch "q" [sampleTech]
    (fun _ => Or.inl rfl)

/-- C2 counterexample: with the generative strategy enabled and a response
that parses to a single score, `rerank` on two candidates returns only one
candidate — not a permutation of the input. -/
theorem rerank_llm_drops_candidates :
    ¬ List.Perm (rerank ⟨true, true⟩ (fun _ _ => 0) (LlmParse.parsed [5]) "q"
        [sampleTech, sampleBeh]).1 [sampleTech, sampleBeh] := by
  intro h
  have hlen := h.length_eq
  have he : (rerank ⟨true, true⟩ (fun _ _ => 0) (LlmParse.parsed [5]) "q"
      [sampleTech, sampleBeh]).1 = [sampleTech] := rfl
  rw [he] at hlen
  simp at hlen

/-- C3 (amended): `_rerank_with_llm` fails open — returns the candidates in
their original input order with every score equal to 1.0, propagating no
error — exactly when no bracketed numeric list is found, when parsing raises
any exception, or when the truncated score list has maximum 0 (the
`ZeroDivisionError` of the normalisation step, caught by the same handler).
A successful parse with the wrong (smaller) count is not detected: it
returns only that many candidates instead of failing open. -/
theorem rerank_llm_failopen (outcome : LlmParse) (cands : List Assessment)
    (h : outcome = LlmParse.noMatch ∨ outcome = LlmParse.parseError ∨
      ∃ s, outcome = LlmParse.parsed s ∧ llmMaxScore (llmTruncScores s cands) = 0) :
    rerankWithLLM outcome cands = (cands, List.replicate cands.length 1) := by
  rcases h with h | h | ⟨s, hs, hmax⟩
  · subst h; rfl
  · subst h; rfl
  · subst hs
    exact rerankWithLLM_parsed_zero s cands hmax

/-- Witness for C3 at a concrete input: no bracketed list in the response. -/
theorem rerank_llm_failopen_witness :
    rerankWithLLM LlmParse.noMatch [sampleTech, sampleBeh] =
      ([sampleTech, sampleBeh], List.replicate 2 1) :=
  rerank_llm_failopen LlmParse.noMatch [sampleTech, sampleBeh] (Or.inl rfl)

/-- C3 counterexample: a parse that succeeds with the wrong count (one score
for two candidates) does not fail open: the result is not the original
candidates with uniform score 1.0 (it has only one candidate). -/
theorem rerank_llm_wrong_count_not_failopen :
    rerankWithLLM (LlmParse.parsed [5]) [sampleTech, sampleBeh] ≠
      ([sampleTech, sampleBeh], [1, 1]) := by
  intro h
  have h1 : (rerankWithLLM (LlmParse.parsed [5]) [sampleTech, sampleBeh]).1.length = 1 := rfl
  rw [h] at h1
  simp at h1

/-- C4 (amended): on a successful parse the scores are truncated to at most
the candidate count (never padded), and normalisation divides by the maximum
with a guard that covers only the empty truncated list: a non-empty all-zero
truncated list raises a `ZeroDivisionError`, which the enclosing handler
catches, falling back to the original order with uniform score 1.0 (so no
error escapes `_rerank_with_llm`, but the division itself is not guarded). -/
theorem llm_normalization_truncates (s : List ℕ) (cands : List Assessment) :
    ((llmTruncScores s cands ≠ [] ∧ llmMaxScore (llmTruncScores s cands) = 0) →
      llmAttempt (LlmParse.parsed s) cands = Except.error () ∧
      rerankWithLLM (LlmParse.parsed s) cands = (cands, List.replicate cands.length 1)) ∧
    (llmMaxScore (llmTruncScores s cands) ≠ 0 →
      (rerankWithLLM (LlmParse.parsed s) cands).2.length = (llmTruncScores s cands).length) := by
  constructor
  · rintro ⟨-, h2⟩
    constructor
    · rw [llmAttempt_parsed, if_pos h2]
    · exact rerankWithLLM_parsed_zero s cands h2
  · intro h
    rw [rerankWithLLM_parsed_ok s cands h]
    show ((pyArgsortDesc (llmNormScores (llmTruncScores s cands))).map _).length = _
    rw [List.length_map, argsort_length, llmNormScores_length]

/-- Witness for C4 at a concrete input: three parsed scores, two candidates —
the returned score list has the truncated length. -/
theorem llm_normalization_truncates_witness :
    (rerankWithLLM (LlmParse.parsed [8, 4, 2]) [sampleTech, sampleBeh]).2.length = 2 := by
  have h := (llm_normalization_truncates [8, 4, 2] [sampleTech, sampleBeh]).2 (by decide)
  simpa [llmTruncScores] using h

/-- C4 counterexample: with two candidates and the parsed scores `[0, 0]`
(non-empty, maximum 0) the normalisation divides by zero: the `try` body
raises (`.error`), contradicting "normalization can never raise a
division-by-zero error". -/
theorem llm_zero_max_raises :
    llmAttempt (LlmParse.parsed [0, 0]) [sampleTech, sampleBeh] = Except.error () := rfl

lemma zip_map_fst_map (l : List ℕ) (f : ℕ → ℚ) (g : ℕ → Assessment) :
    ((l.zip (l.map f)).map (fun p => g p.1)) = l.map g := by
  induction l with
  | nil => rfl
  | cons a l ih => simp only [List.map_cons, List.zip_cons_cons, ih]

lemma zip_map_snd_map (l : List ℕ) (f : ℕ → ℚ) :
    ((l.zip (l.map f)).map (fun p => p.2)) = l.map f := by
  induction l with
  | nil => rfl
  | cons a l ih => simp only [List.map_cons, List.zip_cons_cons, ih]

lemma getD_url_inj {l : List Assessment} (h : (l.map (fun a => a.url)).Nodup)
    {i j : ℕ} (hi : i < l.length) (hj : j < l.length)
    (he : (l.getD i default).url = (l.getD j default).url) : i = j := by
  rw [List.getD_eq_getElem l default hi, List.getD_eq_getElem l default hj] at he
  have hinj := List.nodup_iff_injective_get.mp h
  have hii : i < (l.map (fun a => a.url)).length := by simpa using hi
  have hjj : j < (l.map (fun a => a.url)).length := by simpa using hj
  have hg : (l.map (fun a => a.url)).get ⟨i, hii⟩ = (l.map (fun a => a.url)).get ⟨j, hjj⟩ := by
    simpa using he
  exact congrArg Fin.val (hinj hg)

lemma search_eval (vs : VectorStoreM) (vecs : List (List ℚ)) (queryVec : List ℚ) (topK : ℕ)
    (hidx : vs.index = some vecs)
    (hlen : vecs.length = vs.assessments.length) :
    vs.search queryVec topK =
      Except.ok
        (((pyArgsortDesc (vecs.map (fun v => dot queryVec v))).take
            (min topK vecs.length)).map (fun i => vs.assessments.getD i default),
         ((pyArgsortDesc (vecs.map (fun v => dot queryVec v))).take
            (min topK vecs.length)).map
           (fun i => (vecs.map (fun v => dot queryVec v)).getD i 0)) := by
  have hmem : ∀ i ∈ (pyArgsortDesc (vecs.map (fun v => dot queryVec v))).take
      (min topK vecs.length), i < vs.assessments.length := by
    intro i hi
    have h1 : i ∈ pyArgsortDesc (vecs.map (fun v => dot queryVec v)) :=
      List.mem_of_mem_take hi
    have h2 := argsort_mem_lt _ h1
    rw [List.length_map] at h2
    omega
  have hfilter :
      (((pyArgsortDesc (vecs.map (fun v => dot queryVec v))).take (min topK vecs.length)).zip
        (((pyArgsortDesc (vecs.map (fun v => dot queryVec v))).take (min topK vecs.length)).map
          (fun i => (vecs.map (fun v => dot queryVec v)).getD i 0))).filter
        (fun p => decide (p.1 < vs.assessments.length)) =
      ((pyArgsortDesc (vecs.map (fun v => dot queryVec v))).take (min topK vecs.length)).zip
        (((pyArgsortDesc (vecs.map (fun v => dot queryVec v))).take (min topK vecs.length)).map
          (fun i => (vecs.map (fun v => dot queryVec v)).getD i 0)) := by
    apply List.filter_eq_self.mpr
    intro p hp
    exact decide_eq_true (hmem p.1 (List.of_mem_zip hp).1)
  simp only [VectorStoreM.search, hidx, faissSearchIP]
  rw [hfilter, zip_map_fst_map _ _ (fun i => vs.assessments.getD i default), zip_map_snd_map]

/-- C5: for every query against a built index, `VectorStore.search` returns
exactly `min(top_k, catalog size)` results in non-increasing inner-product
score order, with no duplicate record ids among the returned results. The
hypotheses say the index was installed by `build_index`/`load` (one stored
vector per catalog record) and that catalog ids are unique (the catalog
invariant of the data model). -/
theorem vector_store_search_contract (vs : VectorStoreM) (vecs : List (List ℚ))
    (queryVec : List ℚ) (topK : ℕ)
    (hidx : vs.index = some vecs)
    (hlen : vecs.length = vs.assessments.length)
    (hids : (vs.assessments.map (fun a => a.url)).Nodup) :
    ∃ results scores,
      vs.search queryVec topK = Except.ok (results, scores) ∧
      results.length = min topK vs.assessments.length ∧
      scores.Pairwise (· ≥ ·) ∧
      (results.map (fun a => a.url)).Nodup := by
  have hsearch := search_eval vs vecs queryVec topK hidx hlen
  refine ⟨_, _, hsearch, ?_, ?_, ?_⟩
  · rw [List.length_map, List.length_take, argsort_length, List.length_map, hlen]
    omega
  · apply List.pairwise_map.mpr
    exact (argsort_pairwise _).sublist (List.take_sublist _ _)
  · rw [List.map_map]
    have hnodup : ((pyArgsortDesc (vecs.map (fun v => dot queryVec v))).take
        (min topK vecs.length)).Nodup :=
      (argsort_nodup _).sublist (List.take_sublist _ _)
    apply hnodup.map_on
    intro x hx y hy hxy
    have hxlt : x < vs.assessments.length := by
      have h2 := argsort_mem_lt _ (List.mem_of_mem_take hx)
      rw [List.length_map] at h2
      omega
    have hylt : y < vs.assessments.length := by
      have h2 := argsort_mem_lt _ (List.mem_of_mem_take hy)
      rw [List.length_map] at h2
      omega
    exact getD_url_inj hids hxlt hylt hxy

/-- Witness for C5 at a concrete input: a two-record catalog with a built
two-vector index, `top_k = 1`. -/
theorem vector_store_search_contract_witness :
    ∃ results scores,
      (VectorStoreM.mk (some [[1], [2]]) [sampleTech, sampleBeh]).search [1] 1 =
        Except.ok (results, scores) ∧
      results.length = min 1 [sampleTech, sampleBeh].length ∧
      scores.Pairwise (· ≥ ·) ∧
      (results.map (fun a => a.url)).Nodup :=
  vector_store_search_contract (VectorStoreM.mk (some [[1], [2]]) [sampleTech, sampleBeh])
    [[1], [2]] [1] 1 rfl rfl (by decide)

/-- C6: `VectorStore.search` raises the not-built error ("system not ready",
a `ValueError` in the code) if and only if it is called before
`build_index`/`load` has installed an index; once an index is present this
error is never raised. -/
theorem search_error_iff_not_built (vs : VectorStoreM) (queryVec : List ℚ) (topK : ℕ) :
    (∃ e, vs.search queryVec topK = Except.error e) ↔ vs.index = none := by
  cases h : vs.index with
  | none => simp [VectorStoreM.search, h]
  | some vecs => simp [VectorStoreM.search, h]

/-- Witness for C6 at a concrete input: a store with no index errors out. -/
theorem search_error_iff_not_built_witness :
    ∃ e, (VectorStoreM.mk none [sampleTech]).search [1] 3 = Except.error e :=
  (search_error_iff_not_built (VectorStoreM.mk none [sampleTech]) [1] 3).mpr rfl

/-- C7: whenever the vector-store search returns an empty candidate list
(empty catalog or zero matches), `AssessmentRetriever.retrieve`
short-circuits to `Except.ok []` — the empty list, no raised error — without
running the rerank or balance stages. -/
theorem retrieve_empty_shortcircuit (cfg : RetrieverConfig)
    (predict : String → String → ℚ) (outcome : LlmParse) (vs : VectorStoreM)
    (query : String) (queryVec : List ℚ) (topK topN : Option ℕ) (s : List ℚ)
    (h : vs.search queryVec (pyOrDefault topK TOP_K_RETRIEVAL) = Except.ok ([], s)) :
    retrieve cfg predict outcome vs query queryVec topK topN = Except.ok [] := by
  simp only [retrieve, h, List.isEmpty_nil, if_true]

/-- Witness for C7 at a concrete input: the empty catalog. -/
theorem retrieve_empty_shortcircuit_witness :
    retrieve ⟨true, false⟩ (fun _ _ => 0) LlmParse.noMatch (VectorStoreM.mk (some []) [])
      "java developer" [1] none none = Except.ok [] :=
  retrieve_empty_shortcircuit ⟨true, false⟩ (fun _ _ => 0) LlmParse.noMatch
    (VectorStoreM.mk (some []) []) "java developer" [1] none none [] rfl

lemma bucket_length_sum (l : List Assessment) :
    l.length =
      (technicalBucket l).length + (behavioralBucket l).length + (otherBucket l).length := by
  have h2 := (perm_filter_partition isTechnical isBehavioral l).length_eq
  simp only [List.length_append] at h2
  simp only [technicalBucket, behavioralBucket, otherBucket]
  omega

/-- C8 counterexample: on an input of length 90 the code's quota
`int(len(assessments) * 0.7)` evaluates (in binary64 arithmetic) to 62,
while `floor(0.7 * 90) = 63`: the claimed formula `floor(0.7 * N)` does not
describe the code at `N = 90`. -/
theorem balance_quota_float_cex :
    targetTechnical (List.replicate 90 sampleTech).length = 62 ∧
    targetTechnical (List.replicate 90 sampleTech).length ≠
      7 * (List.replicate 90 sampleTech).length / 10 := by
  constructor
  · rw [List.length_replicate]
    decide
  · rw [List.length_replicate]
    decide

/-- C8 (amended): the technical quota is the binary64 evaluation of
`int(N * 0.7)`, which coincides with `floor(0.7 * N)` for every input length
`N ≤ 89` (the first divergence is at `N = 90`, where the float product
rounds down); the behavioral quota is `N` minus the technical quota, and the
output places up to `target_technical` technical-bucket items (in their
input-relative order) before up to `target_behavioral` behavioral-bucket
items, ahead of everything else. -/
theorem balance_quota_amended (l : List Assessment) (h : l.length ≤ 89) :
    targetTechnical l.length = 7 * l.length / 10 ∧
    ∃ rest, balanceDomains l =
      (technicalBucket l).take (targetTechnical l.length) ++
      ((behavioralBucket l).take (l.length - targetTechnical l.length) ++ rest) := by
  have hq : targetTechnical l.length = 7 * l.length / 10 :=
    pyIntTimes07_small l.length (by omega)
  have htt : targetTechnical l.length ≤ l.length := by
    rw [hq]
    omega
  refine ⟨hq, ?_⟩
  have hn := bucket_length_sum l
  set a := targetTechnical l.length with ha
  set bq := l.length - a with hbq
  have hfill : ∃ z,
      balanceFill (technicalBucket l) (behavioralBucket l) (otherBucket l) a bq l.length =
        ((technicalBucket l).take a ++ (behavioralBucket l).take bq) ++ z := by
    rw [hn]
    simp only [balanceFill, balancePrimary_eq]
    by_cases hc :
        (((technicalBucket l).take a ++ (behavioralBucket l).take bq) ++ otherBucket l).length <
          (technicalBucket l).length + (behavioralBucket l).length + (otherBucket l).length
    · rw [if_pos hc]
      exact ⟨otherBucket l ++ ((technicalBucket l).drop a ++ (behavioralBucket l).drop bq), by
        simp only [List.append_assoc]⟩
    · rw [if_neg hc]
      exact ⟨otherBucket l, rfl⟩
  obtain ⟨z, hz⟩ := hfill
  have hXlen : ((technicalBucket l).take a ++ (behavioralBucket l).take bq).length ≤ l.length := by
    simp only [List.length_append, List.length_take]
    omega
  refine ⟨z.take (l.length - ((technicalBucket l).take a ++ (behavioralBucket l).take bq).length), ?_⟩
  show balanceCore (technicalBucket l) (behavioralBucket l) (otherBucket l) a bq l.length = _
  unfold balanceCore
  rw [hz, List.take_append_eq_append_take, List.take_of_length_le hXlen, List.append_assoc]

/-- Witness for C8 at a concrete input: three candidates, quota
`floor(0.7 * 3) = 2`. -/
theorem balance_quota_amended_witness :
    targetTechnical [sampleTech, sampleBeh, sampleOther].length =
      7 * [sampleTech, sampleBeh, sampleOther].length / 10 ∧
    ∃ rest, balanceDomains [sampleTech, sampleBeh, sampleOther] =
      (technicalBucket [sampleTech, sampleBeh, sampleOther]).take
        (targetTechnical [sampleTech, sampleBeh, sampleOther].length) ++
      ((behavioralBucket [sampleTech, sampleBeh, sampleOther]).take
        ([sampleTech, sampleBeh, sampleOther].length -
          targetTechnical [sampleTech, sampleBeh, sampleOther].length) ++ rest) :=
  balance_quota_amended [sampleTech, sampleBeh, sampleOther] (by decide)

lemma geminiDivisor_ne_zero (v : List ℝ) : geminiDivisor v ≠ 0 := by
  unfold geminiDivisor
  by_cases h : l2norm v = 0
  · rw [if_pos h]
    exact one_ne_zero
  · rw [if_neg h]
    exact h

lemma normalizeRow_zeroVec (dim : ℕ) : normalizeRow (zeroVec dim) = zeroVec dim := by
  have hz : l2norm (zeroVec dim) = 0 := by
    unfold l2norm zeroVec
    simp [List.map_replicate, List.sum_replicate]
  unfold normalizeRow geminiDivisor
  rw [hz, if_pos rfl]
  unfold zeroVec
  simp [List.map_replicate]

/-- C9: the Gemini batch encoder returns exactly one embedding per input
text, in input order; an item whose backend call fails is replaced by the
zero vector while the rest of the batch is still processed (element `i` of
the output depends only on the backend result for text `i`); and the final
normalisation never divides by zero because a zero row norm is replaced
by the divisor 1. -/
theorem encode_gemini_contract (backend : String → Option (List ℝ)) (dim : ℕ)
    (texts : List String) :
    (encodeGemini backend dim texts).length = texts.length ∧
    (∀ i : ℕ, i < texts.length →
      (backend (texts.getD i "") = none →
        (encodeGemini backend dim texts).getD i [] = zeroVec dim) ∧
      (∀ e, backend (texts.getD i "") = some e →
        (encodeGemini backend dim texts).getD i [] = normalizeRow e)) ∧
    (∀ v : List ℝ, geminiDivisor v ≠ 0) := by
  refine ⟨by simp [encodeGemini], ?_, geminiDivisor_ne_zero⟩
  intro i hi
  have hlen2 : i < ((texts.map (fun t => (backend t).getD (zeroVec dim))).map normalizeRow).length := by
    simpa using hi
  have hgetD : (encodeGemini backend dim texts).getD i [] =
      normalizeRow ((backend (texts.getD i "")).getD (zeroVec dim)) := by
    unfold encodeGemini
    rw [List.getD_eq_getElem _ [] hlen2]
    simp only [List.getElem_map]
    rw [List.getD_eq_getElem texts "" hi]
  constructor
  · intro hnone
    rw [hgetD, hnone]
    simp only [Option.getD_none]
    exact normalizeRow_zeroVec dim
  · intro e he
    rw [hgetD, he]
    rfl

/-- Witness for C9 at a concrete input: a backend that fails on the second
text yields the zero vector in position 1. -/
theorem encode_gemini_contract_witness :
    (encodeGemini (fun t => if t = "good" then some [1, 0] else none) 2
      ["good", "bad"]).getD 1 [] = zeroVec 2 :=
  ((encode_gemini_contract (fun t => if t = "good" then some [1, 0] else none) 2
      ["good", "bad"]).2.1 1 (by decide)).1 (by rfl)

/-- C10 (implicit): `retrieve` treats `top_k = 0` / `top_n = 0` (and `None`)
identically to leaving the parameter unspecified — the falsy value falls
back to the configured defaults `TOP_K_RETRIEVAL = 20` and
`TOP_N_FINAL = 10` — so a caller can never request zero candidates or an
empty result through these parameters. -/
theorem retrieve_default_params :
    (∀ d : ℕ, pyOrDefault none d = d ∧ pyOrDefault (some 0) d = d) ∧
    TOP_K_RETRIEVAL = 20 ∧ TOP_N_FINAL = 10 ∧
    (∀ v : Option ℕ, 0 < pyOrDefault v TOP_K_RETRIEVAL ∧ 0 < pyOrDefault v TOP_N_FINAL) ∧
    (∀ (cfg : RetrieverConfig) (predict : String → String → ℚ) (outcome : LlmParse)
      (vs : VectorStoreM) (query : String) (queryVec : List ℚ) (topN : Option ℕ),
      retrieve cfg predict outcome vs query queryVec (some 0) topN =
        retrieve cfg predict outcome vs query queryVec none topN) ∧
    (∀ (cfg : RetrieverConfig) (predict : String → String → ℚ) (outcome : LlmParse)
      (vs : VectorStoreM) (query : String) (queryVec : List ℚ) (topK : Option ℕ),
      retrieve cfg predict outcome vs query queryVec topK (some 0) =
        retrieve cfg predict outcome vs query queryVec topK none) := by
  refine ⟨fun d => ⟨rfl, rfl⟩, rfl, rfl, ?_, fun _ _ _ _ _ _ _ => rfl, fun _ _ _ _ _ _ _ => rfl⟩
  intro v
  rcases v with _ | k
  · exact ⟨by decide, by decide⟩
  · by_cases hk : k = 0
    · subst hk
      exact ⟨by decide, by decide⟩
    · constructor <;> (simp only [pyOrDefault, if_neg hk]; omega)
